import Mathlib

/-!
# cargo-service: verification of the service registry and controller

Shallow embedding of `src/main.rs` of the `cargo-service` repository:
a minimal local service manager keeping an on-disk registry of started
services (one record per binary path) with `start`/`stop` operations.

OS interactions (process spawn, running the external `kill` program,
the file system) are modelled as explicit inputs: each operation takes
the environment's response to the single OS call it performs, and the
result records which effects (spawn attempt, kill invocation, registry
save) the code performed, together with the registry it persisted.
-/

/-- `struct Service { binary_path: String, pid: Option<u32> }`
(main.rs lines 12-16).  The pid is a `u32` in Rust; no arithmetic is
performed on it, so it is embedded as `Nat`. -/
structure Service where
  binary_path : String
  pid : Option Nat
deriving Repr, DecidableEq

/-- Result of `Service::from_str` (main.rs lines 36-45): always `Ok`,
path stored verbatim, pid absent. The error type is `String` as in
`type Err = String`. -/
def Service.from_str (s : String) : Except String Service :=
  Except.ok { binary_path := s, pid := none }

/-- Outcome of `start_service`: which exit path the function took.
`alreadyExists` is the non-fatal `eprintln!` branch (line 65),
`spawnFailed` the `expect("Failed to start service")` panic (line 71),
`started pid` the success path (lines 73-78). -/
inductive StartOutcome where
  | alreadyExists
  | spawnFailed
  | started (pid : Nat)
deriving Repr, DecidableEq

/-- Observable result of one `start_service` call: the registry that is
persisted afterwards (unchanged when no save happens), whether a spawn
was attempted, whether `save_services` was called, and the outcome. -/
structure StartResult where
  registry : List Service
  spawnAttempted : Bool
  saved : Bool
  outcome : StartOutcome
deriving Repr, DecidableEq

/-- `start_service` (main.rs lines 61-80), with the in-memory registry
made explicit (`load_services`/`save_services` bracket the body) and the
OS spawn call abstracted: `spawnRes` is the result of
`Command::new(&binary_path.binary_path).spawn()` — `Except.ok pid`
yields `child.id()`, `Except.error ()` is an `io::Error`, on which the
code panics via `expect` before touching the registry. -/
def start_service (spawnRes : Except Unit Nat) (services : List Service)
    (binary_path : Service) : StartResult :=
  if services.any (fun s => s.binary_path == binary_path.binary_path) then
    { registry := services, spawnAttempted := false, saved := false,
      outcome := .alreadyExists }
  else
    match spawnRes with
    | .error _ =>
      { registry := services, spawnAttempted := true, saved := false,
        outcome := .spawnFailed }
    | .ok pid =>
      { registry := services ++ [{ binary_path with pid := some pid }],
        spawnAttempted := true, saved := true, outcome := .started pid }

/-- Outcome of `stop_service`: `notFound` is the `panic!` branch
(line 99), `missingPid` the `expect("Service PID not found")` panic
(line 87), `killFailed` the `expect("Failed to stop service")` panic
(line 93), `stopped` the success path (lines 95-97). -/
inductive StopOutcome where
  | notFound
  | missingPid
  | killFailed
  | stopped
deriving Repr, DecidableEq

/-- Observable result of one `stop_service` call. `killSent` records
whether the code reached the `Command::new("kill")` invocation. -/
structure StopResult where
  registry : List Service
  killSent : Bool
  saved : Bool
  outcome : StopOutcome
deriving Repr, DecidableEq

/-- `stop_service` (main.rs lines 82-101). `killExec` is the result of
`Command::new("kill").arg("-9").arg(pid.to_string()).output()`:
`Except.error ()` means the `kill` program could not be run at all
(spawn/wait of the helper process failed — the only case `.expect`
panics on); `Except.ok ok` means the `kill` program ran to completion
with `ok` recording whether its exit status was success.  The Rust code
discards the `Output` value, so `ok` is never inspected.  Rust's
`iter().position` is `List.findIdx?`, `services.remove(index)` is
`List.eraseIdx`. -/
def stop_service (killExec : Except Unit Bool) (services : List Service)
    (service_name : Service) : StopResult :=
  match services.findIdx? (fun s => s.binary_path == service_name.binary_path) with
  | none =>
    { registry := services, killSent := false, saved := false,
      outcome := .notFound }
  | some index =>
    -- `&services[index]`: the index returned by `position` is in bounds,
    -- so the `none` branch of `services[index]?` is unreachable; it is
    -- mapped to the same panic-shaped result as `notFound`.
    match services[index]? with
    | none =>
      { registry := services, killSent := false, saved := false,
        outcome := .notFound }
    | some service =>
      match service.pid with
      | none =>
        { registry := services, killSent := false, saved := false,
          outcome := .missingPid }
      | some _ =>
        match killExec with
        | .error _ =>
          { registry := services, killSent := true, saved := false,
            outcome := .killFailed }
        | .ok _ =>
          { registry := services.eraseIdx index, killSent := true,
            saved := true, outcome := .stopped }

/-- One user-level command together with the environment's response to
the single OS call it performs (`main`/`Action::run`, main.rs lines
47-59: each invocation parses the path via `Service::from_str`, so the
operations receive a `Service` with `pid := none`). -/
inductive Op where
  | start (spawnRes : Except Unit Nat) (path : String)
  | stop (killExec : Except Unit Bool) (path : String)

/-- The registry persisted after one command invocation (each invocation
loads the registry, runs, and the next invocation sees the registry it
left behind). -/
def applyOp (services : List Service) : Op → List Service
  | .start spawnRes path =>
    (start_service spawnRes services { binary_path := path, pid := none }).registry
  | .stop killExec path =>
    (stop_service killExec services { binary_path := path, pid := none }).registry

/-- Registry after a whole sequence of command invocations. -/
def runOps (services : List Service) (ops : List Op) : List Service :=
  ops.foldl applyOp services

/-!
## Registry store: serialization

`save_services`/`load_services` (main.rs lines 103-119) delegate the
textual encoding to `ron::ser::to_string_pretty` and `ron::de::from_reader`
of the external `ron` crate, whose code is not part of this repository.
The spec (§6, §8) pins down only the shape: a pretty-printed,
human-readable ordered sequence of records, each a string path plus an
optional integer, that round-trips.  The encoder/decoder below realize
that shape (RON's pretty syntax for `Vec<Service>`).
-/

/-- String escaping for the quoted `binary_path` field: a backslash or a
double quote is preceded by a backslash, every other character is kept
verbatim. -/
def escapeChar (c : Char) : List Char :=
  if c = '\\' ∨ c = '"' then ['\\', c] else [c]

/-- Escape a whole string (as a character list). -/
def escapeString : List Char → List Char
  | [] => []
  | c :: cs => escapeChar c ++ escapeString cs

/-- Decimal digits of `n`, most significant first. -/
def natToChars (n : Nat) : List Char :=
  if _h : n < 10 then [Nat.digitChar n]
  else natToChars (n / 10) ++ [Nat.digitChar (n % 10)]
decreasing_by exact Nat.div_lt_self (by omega) (by omega)

/-- Numeric value of a decimal digit character. -/
def charDigit (c : Char) : Nat := c.toNat - 48

/-- Opening of the record sequence. -/
def litOpen : List Char := "[\n".data

/-- Closing of the record sequence. -/
def litClose : List Char := "]".data

/-- From the start of a record up to the opening quote of the path. -/
def litRecHdr : List Char := "    (\n        binary_path: \"".data

/-- Between the closing quote of the path and the pid value. -/
def litRecMid : List Char := ",\n        pid: ".data

/-- From the end of the pid value to the end of the record. -/
def litRecEnd : List Char := ",\n    ),\n".data

/-- The absent-pid token. -/
def litNone : List Char := "None".data

/-- Opening of a present pid. -/
def litSomeOpen : List Char := "Some(".data

/-- Encoding of the optional pid field. -/
def serializePid : Option Nat → List Char
  | none => litNone
  | some n => litSomeOpen ++ natToChars n ++ [')']

/-- Encoding of one record. -/
def serializeService (s : Service) : List Char :=
  litRecHdr ++ escapeString s.binary_path.data ++ '"' :: litRecMid ++
    serializePid s.pid ++ litRecEnd

/-- Modelled from the spec: the serializer `ron::ser::to_string_pretty`
used by `save_services` is external library code absent from src/; per
spec §6 the file holds a pretty-printed ordered sequence of two-field
records. -/
def serializeServices (l : List Service) : List Char :=
  litOpen ++ l.flatMap serializeService ++ litClose

/-- Consume an expected literal prefix, returning the rest of the input,
or `none` when the input does not start with the literal. -/
def dropLit : List Char → List Char → Option (List Char)
  | [], input => some input
  | _ :: _, [] => none
  | c :: cs, x :: xs => if x = c then dropLit cs xs else none

/-- Read a quoted string body up to the closing quote, undoing the
escaping; returns the decoded characters and the input after the
closing quote. -/
def parseStringBody : List Char → Option (List Char × List Char)
  | [] => none
  | c :: rest =>
    if c = '"' then some ([], rest)
    else if c = '\\' then
      match rest with
      | [] => none
      | d :: rest2 =>
        match parseStringBody rest2 with
        | none => none
        | some (s, r) => some (d :: s, r)
    else
      match parseStringBody rest with
      | none => none
      | some (s, r) => some (c :: s, r)

/-- Read a maximal run of decimal digits, folding them onto `acc`. -/
def parseDigitsAux : List Char → Nat → Nat × List Char
  | [], acc => (acc, [])
  | c :: rest, acc =>
    if c.isDigit then parseDigitsAux rest (10 * acc + charDigit c)
    else (acc, c :: rest)

/-- Read an optional pid: either the absent-pid token or a parenthesized
nonempty digit run. -/
def parsePid (input : List Char) : Option (Option Nat × List Char) :=
  match dropLit litNone input with
  | some rest => some (none, rest)
  | none =>
    match dropLit litSomeOpen input with
    | none => none
    | some rest =>
      match rest with
      | [] => none
      | c :: _ =>
        if c.isDigit then
          match parseDigitsAux rest 0 with
          | (n, rest2) =>
            match rest2 with
            | ')' :: rest3 => some (some n, rest3)
            | _ => none
        else none

/-- Read one record. -/
def parseService (input : List Char) : Option (Service × List Char) :=
  match dropLit litRecHdr input with
  | none => none
  | some r1 =>
    match parseStringBody r1 with
    | none => none
    | some (pathChars, r2) =>
      match dropLit litRecMid r2 with
      | none => none
      | some r3 =>
        match parsePid r3 with
        | none => none
        | some (pid, r4) =>
          match dropLit litRecEnd r4 with
          | none => none
          | some r5 => some ({ binary_path := String.mk pathChars, pid := pid }, r5)

/-- Read records until the closing bracket; `fuel` bounds the recursion
(one unit per record suffices, the caller passes the input length). -/
def parseServicesAux : Nat → List Char → Option (List Service × List Char)
  | 0, _ => none
  | fuel + 1, input =>
    match dropLit litClose input with
    | some rest => some ([], rest)
    | none =>
      match parseService input with
      | none => none
      | some (s, rest) =>
        match parseServicesAux fuel rest with
        | none => none
        | some (l, rest2) => some (s :: l, rest2)

/-- Modelled from the spec: the deserializer `ron::de::from_reader` used
by `load_services` is external library code absent from src/; per spec
§6/§8 it must read back exactly the sequence the encoder wrote,
rejecting anything else (`FormatError`). -/
def deserializeServices (input : List Char) : Option (List Service) :=
  match dropLit litOpen input with
  | none => none
  | some rest =>
    match parseServicesAux (rest.length + 1) rest with
    | some (l, []) => some l
    | _ => none

/-- `save_services` (main.rs lines 113-119): the file contents written
(the file system is abstracted away; writing is modelled as producing
the new contents of the registry file). -/
def save_services (services : List Service) : String :=
  String.mk (serializeServices services)

/-- `load_services` (main.rs lines 103-111): `file` is the current
contents of the registry file (`none` when `path.exists()` is false, in
which case `Vec::new()` is returned).  A file that exists but does not
decode makes the code panic via `expect("Failed to read file")`,
modelled as `Except.error`. -/
def load_services (file : Option String) : Except String (List Service) :=
  match file with
  | none => Except.ok []
  | some contents =>
    match deserializeServices contents.data with
    | some services => Except.ok services
    | none => Except.error "Failed to read file"

/-!
## Lemmas: the decoder undoes the encoder
-/

theorem String_mk_data (s : String) : String.mk s.data = s := rfl

theorem dropLit_append (lit rest : List Char) :
    dropLit lit (lit ++ rest) = some rest := by
  induction lit with
  | nil => rfl
  | cons c cs ih => simp [dropLit, ih]

theorem parseStringBody_escapeString (s rest : List Char) :
    parseStringBody (escapeString s ++ '"' :: rest) = some (s, rest) := by
  induction s with
  | nil =>
    simp only [escapeString, List.nil_append]
    unfold parseStringBody
    simp
  | cons c cs ih =>
    by_cases h : c = '\\' ∨ c = '"'
    · rcases h with h | h <;> subst h <;>
        · simp only [escapeString, escapeChar, List.cons_append, List.append_assoc]
          norm_num
          unfold parseStringBody
          simp [ih]
    · push_neg at h
      have hch : escapeChar c = [c] := by simp [escapeChar, h.1, h.2]
      simp only [escapeString, hch, List.cons_append]
      unfold parseStringBody
      simp [h.1, h.2, ih]

theorem natToChars_lt (n : Nat) (h : n < 10) :
    natToChars n = [Nat.digitChar n] := by
  rw [natToChars]
  simp [h]

theorem natToChars_ge (n : Nat) (h : ¬ n < 10) :
    natToChars n = natToChars (n / 10) ++ [Nat.digitChar (n % 10)] := by
  rw [natToChars]
  simp [h]

theorem digitChar_isDigit (d : Nat) (h : d < 10) :
    (Nat.digitChar d).isDigit = true := by
  interval_cases d <;> decide

theorem charDigit_digitChar (d : Nat) (h : d < 10) :
    charDigit (Nat.digitChar d) = d := by
  interval_cases d <;> decide

theorem natToChars_all_digits (n : Nat) :
    ∀ c ∈ natToChars n, c.isDigit = true := by
  induction n using Nat.strong_induction_on with
  | _ n ih =>
    by_cases h : n < 10
    · rw [natToChars_lt n h]
      intro c hc
      simp only [List.mem_singleton] at hc
      subst hc
      exact digitChar_isDigit n h
    · rw [natToChars_ge n h]
      intro c hc
      rcases List.mem_append.mp hc with hc | hc
      · exact ih (n / 10) (Nat.div_lt_self (by omega) (by omega)) c hc
      · simp only [List.mem_singleton] at hc
        subst hc
        exact digitChar_isDigit _ (Nat.mod_lt _ (by omega))

theorem natToChars_ne_nil (n : Nat) : natToChars n ≠ [] := by
  by_cases h : n < 10
  · rw [natToChars_lt n h]; simp
  · rw [natToChars_ge n h]; simp

theorem foldl_natToChars (n : Nat) :
    (natToChars n).foldl (fun a c => 10 * a + charDigit c) 0 = n := by
  induction n using Nat.strong_induction_on with
  | _ n ih =>
    by_cases h : n < 10
    · rw [natToChars_lt n h]
      simp [charDigit_digitChar n h]
    · rw [natToChars_ge n h, List.foldl_append,
        ih (n / 10) (Nat.div_lt_self (by omega) (by omega))]
      simp [charDigit_digitChar (n % 10) (Nat.mod_lt _ (by omega))]
      omega

theorem parseDigitsAux_digits (ds : List Char) (tail : List Char) (acc : Nat)
    (hds : ∀ c ∈ ds, c.isDigit = true) :
    parseDigitsAux (ds ++ ')' :: tail) acc =
      (ds.foldl (fun a c => 10 * a + charDigit c) acc, ')' :: tail) := by
  induction ds generalizing acc with
  | nil => simp [parseDigitsAux]
  | cons c cs ih =>
    simp only [List.cons_append, parseDigitsAux, hds c (List.mem_cons_self c cs),
      if_pos, List.foldl_cons]
    exact ih _ (fun x hx => hds x (List.mem_cons_of_mem c hx))

theorem parsePid_serializePid (pid : Option Nat) (rest : List Char) :
    parsePid (serializePid pid ++ rest) = some (pid, rest) := by
  cases pid with
  | none =>
    show parsePid (litNone ++ rest) = some (none, rest)
    unfold parsePid
    rw [dropLit_append]
  | some n =>
    obtain ⟨c, cs, hcc⟩ := List.exists_cons_of_ne_nil (natToChars_ne_nil n)
    have hdig : ∀ x ∈ natToChars n, x.isDigit = true := natToChars_all_digits n
    have hc : c.isDigit = true := hdig c (by rw [hcc]; exact List.mem_cons_self c cs)
    have hparse : parseDigitsAux (natToChars n ++ ')' :: rest) 0 = (n, ')' :: rest) := by
      rw [parseDigitsAux_digits _ _ _ hdig, foldl_natToChars]
    have e1 : serializePid (some n) ++ rest =
        litSomeOpen ++ (natToChars n ++ ')' :: rest) := by
      simp [serializePid, List.append_assoc]
    rw [e1]
    unfold parsePid
    have e2 : dropLit litNone (litSomeOpen ++ (natToChars n ++ ')' :: rest)) = none := rfl
    rw [e2, dropLit_append, hcc] at *
    simp only [List.cons_append] at hparse ⊢
    simp [hc, hparse]

theorem parseService_serializeService (s : Service) (rest : List Char) :
    parseService (serializeService s ++ rest) = some (s, rest) := by
  have e1 : serializeService s ++ rest =
      litRecHdr ++ (escapeString s.binary_path.data ++ '"' ::
        (litRecMid ++ (serializePid s.pid ++ (litRecEnd ++ rest)))) := by
    simp [serializeService, List.append_assoc]
  unfold parseService
  rw [e1]
  simp only [dropLit_append, parseStringBody_escapeString, parsePid_serializePid,
    String_mk_data]

theorem dropLit_litClose_serializeService (s : Service) (X : List Char) :
    dropLit litClose (serializeService s ++ X) = none := rfl

theorem parseServicesAux_serialize (l : List Service) (fuel : Nat) (rest : List Char)
    (hfuel : l.length + 1 ≤ fuel) :
    parseServicesAux fuel (l.flatMap serializeService ++ ']' :: rest) =
      some (l, rest) := by
  induction l generalizing fuel rest with
  | nil =>
    obtain ⟨f, rfl⟩ : ∃ f, fuel = f + 1 := ⟨fuel - 1, by omega⟩
    show parseServicesAux (f + 1) (litClose ++ rest) = some ([], rest)
    unfold parseServicesAux
    rw [dropLit_append]
  | cons s tl ih =>
    obtain ⟨f, rfl⟩ : ∃ f, fuel = f + 1 := ⟨fuel - 1, by omega⟩
    have e1 : (s :: tl).flatMap serializeService ++ ']' :: rest =
        serializeService s ++ (tl.flatMap serializeService ++ ']' :: rest) := by
      simp [List.append_assoc]
    rw [e1]
    unfold parseServicesAux
    simp only [dropLit_litClose_serializeService, parseService_serializeService,
      ih f rest (by simp at hfuel ⊢; omega)]

theorem serializeService_length_pos (s : Service) :
    1 ≤ (serializeService s).length := by
  have : serializeService s = litRecHdr ++ (escapeString s.binary_path.data ++ '"' ::
      (litRecMid ++ (serializePid s.pid ++ litRecEnd))) := by
    simp [serializeService, List.append_assoc]
  rw [this, List.length_append]
  have h28 : litRecHdr.length = 28 := by decide
  omega

theorem length_le_flatMap_serializeService (l : List Service) :
    l.length ≤ (l.flatMap serializeService).length := by
  induction l with
  | nil => simp
  | cons s tl ih =>
    have := serializeService_length_pos s
    simp only [List.flatMap_cons, List.length_append, List.length_cons]
    omega

/-!
## Lemmas: the controller's registry lookups
-/

theorem any_path_true_of_mem (services : List Service) (b : String)
    (h : ∃ s ∈ services, s.binary_path = b) :
    services.any (fun s => s.binary_path == b) = true := by
  rw [List.any_eq_true]
  obtain ⟨s, hs, hb⟩ := h
  exact ⟨s, hs, by simp [hb]⟩

theorem any_path_false_of_not_mem (services : List Service) (b : String)
    (h : ∀ s ∈ services, s.binary_path ≠ b) :
    services.any (fun s => s.binary_path == b) = false := by
  rw [List.any_eq_false]
  intro x hx
  simp [h x hx]

theorem findIdx?_path_none (services : List Service) (b : String)
    (h : ∀ s ∈ services, s.binary_path ≠ b) :
    services.findIdx? (fun s => s.binary_path == b) = none := by
  rw [List.findIdx?_eq_none_iff]
  intro x hx
  simp [h x hx]

/-- Under the uniqueness invariant, the linear scan of `stop_service`
finds exactly the record that the membership hypothesis exhibits. -/
theorem findIdx?_first_match (services : List Service) (b : String) (s : Service)
    (hnd : (services.map Service.binary_path).Nodup)
    (hs : s ∈ services) (hb : s.binary_path = b) :
    ∃ i, services.findIdx? (fun x => x.binary_path == b) = some i ∧
      services[i]? = some s := by
  have hex : ∃ x ∈ services, (x.binary_path == b) = true := ⟨s, hs, by simp [hb]⟩
  have hlt := List.findIdx_lt_length_of_exists hex
  refine ⟨List.findIdx (fun x => x.binary_path == b) services,
    List.findIdx?_eq_some_of_exists hex, ?_⟩
  have hmem2 : services[List.findIdx (fun x => x.binary_path == b) services] ∈ services :=
    List.getElem_mem hlt
  have hp : (services[List.findIdx (fun x => x.binary_path == b) services].binary_path
      == b) = true :=
    @List.findIdx_getElem _ (fun x => x.binary_path == b) services hlt
  have heq : services[List.findIdx (fun x => x.binary_path == b) services] = s :=
    List.inj_on_of_nodup_map hnd hmem2 hs (by rw [hb]; exact beq_iff_eq.mp hp)
  rw [List.getElem?_eq_getElem hlt, heq]

theorem String_data_mk (l : List Char) : (String.mk l).data = l := rfl

theorem start_preserves_unique_paths (spawnRes : Except Unit Nat)
    (services : List Service) (bp : Service)
    (h : (services.map Service.binary_path).Nodup) :
    (((start_service spawnRes services bp).registry).map Service.binary_path).Nodup := by
  cases hany : services.any (fun s => s.binary_path == bp.binary_path) with
  | true => simpa [start_service, hany] using h
  | false =>
    cases spawnRes with
    | error e => simpa [start_service, hany] using h
    | ok pid =>
      have hnotmem : bp.binary_path ∉ services.map Service.binary_path := by
        rw [List.mem_map]
        rintro ⟨x, hx, hxeq⟩
        exact absurd (beq_iff_eq.mpr hxeq) (by simpa using List.any_eq_false.mp hany x hx)
      simp only [start_service, hany, Bool.false_eq_true, if_false, List.map_append]
      rw [List.nodup_append]
      refine ⟨h, by simp, ?_⟩
      rw [show ([{ bp with pid := some pid }].map Service.binary_path)
          = [bp.binary_path] from rfl,
        List.disjoint_singleton]
      exact hnotmem

theorem stop_preserves_unique_paths (killExec : Except Unit Bool)
    (services : List Service) (name : Service)
    (h : (services.map Service.binary_path).Nodup) :
    (((stop_service killExec services name).registry).map Service.binary_path).Nodup := by
  have herase : ∀ i, ((services.eraseIdx i).map Service.binary_path).Nodup := fun i =>
    List.Nodup.sublist
      (List.Sublist.map Service.binary_path (List.eraseIdx_sublist services i)) h
  cases hfind : services.findIdx? (fun s => s.binary_path == name.binary_path) with
  | none => simpa [stop_service, hfind] using h
  | some i =>
    cases hget : services[i]? with
    | none => simpa [stop_service, hfind, hget] using h
    | some srv =>
      cases hpid : srv.pid with
      | none => simpa [stop_service, hfind, hget, hpid] using h
      | some p =>
        cases killExec with
        | error e => simpa [stop_service, hfind, hget, hpid] using h
        | ok b => simpa [stop_service, hfind, hget, hpid] using herase i

/-!
## Claim theorems
-/

/-- C9: `load_services` on a non-existent registry file (the file
contents are `none`) returns the empty sequence without raising any
error. -/
theorem load_nonexistent_file_empty : load_services none = Except.ok [] := rfl

/-- C10: parsing a command-line service argument never fails and yields
a record whose `binary_path` is the input string verbatim and whose pid
is absent; no validation is performed. -/
theorem from_str_never_fails (s : String) :
    Service.from_str s = Except.ok { binary_path := s, pid := none } := rfl

/-- C4: for every finite sequence of service records, `save_services`
followed by `load_services` yields the original sequence, with field
values and record order preserved. -/
theorem save_then_load_round_trip (services : List Service) :
    load_services (some (save_services services)) = Except.ok services := by
  have hdata : (save_services services).data =
      litOpen ++ (services.flatMap serializeService ++ [']']) := by
    rw [save_services, String_data_mk, serializeServices, List.append_assoc,
      show litClose = [']'] from rfl]
  have hparse : parseServicesAux
      ((services.flatMap serializeService ++ [']']).length + 1)
      (services.flatMap serializeService ++ [']']) = some (services, []) := by
    have hfuel : services.length + 1 ≤
        (services.flatMap serializeService ++ [']']).length + 1 := by
      rw [List.length_append]
      have := length_le_flatMap_serializeService services
      simp only [List.length_singleton]
      omega
    exact parseServicesAux_serialize services _ [] hfuel
  simp only [load_services, deserializeServices, hdata, dropLit_append, hparse]

/-- C3: starting from a registry with no duplicate `binary_path`
entries, no sequence of Start/Stop invocations can ever produce two
records sharing a `binary_path`. -/
theorem runOps_preserves_unique_paths (services : List Service) (ops : List Op)
    (h : (services.map Service.binary_path).Nodup) :
    ((runOps services ops).map Service.binary_path).Nodup := by
  induction ops generalizing services with
  | nil => simpa [runOps] using h
  | cons op rest ih =>
    rw [runOps, List.foldl_cons]
    refine ih _ ?_
    cases op with
    | start spawnRes path =>
      exact start_preserves_unique_paths spawnRes services
        { binary_path := path, pid := none } h
    | stop killExec path =>
      exact stop_preserves_unique_paths killExec services
        { binary_path := path, pid := none } h

/-- Witness for C3 at a concrete input: the empty registry has unique
paths, and so does the registry left by a start/start/stop sequence. -/
theorem runOps_preserves_unique_paths_witness :
    ((([] : List Service)).map Service.binary_path).Nodup ∧
    ((runOps []
        [Op.start (Except.ok 5) "/bin/a", Op.start (Except.ok 6) "/bin/a",
         Op.stop (Except.ok true) "/bin/a"]).map Service.binary_path).Nodup :=
  ⟨by decide,
   runOps_preserves_unique_paths []
     [Op.start (Except.ok 5) "/bin/a", Op.start (Except.ok 6) "/bin/a",
      Op.stop (Except.ok true) "/bin/a"] (by decide)⟩

/-- C5: Start on a registry that already holds the requested
`binary_path` reports "already exists" non-fatally, attempts no spawn,
saves nothing and leaves the registry unchanged; and two Starts on the
same fresh path (the first spawn succeeding) leave exactly one record
for that path, the second call reporting "already exists". -/
theorem start_on_existing_path_noop :
    (∀ (spawnRes : Except Unit Nat) (services : List Service) (bp : Service),
      (∃ s ∈ services, s.binary_path = bp.binary_path) →
      start_service spawnRes services bp =
        { registry := services, spawnAttempted := false, saved := false,
          outcome := StartOutcome.alreadyExists }) ∧
    (∀ (pid : Nat) (spawnRes2 : Except Unit Nat) (services : List Service) (bp : Service),
      (∀ s ∈ services, s.binary_path ≠ bp.binary_path) →
      (start_service spawnRes2
          (start_service (Except.ok pid) services bp).registry bp).outcome
        = StartOutcome.alreadyExists ∧
      (start_service spawnRes2
          (start_service (Except.ok pid) services bp).registry bp).registry.countP
          (fun s => s.binary_path == bp.binary_path) = 1) := by
  constructor
  · intro spawnRes services bp h
    simp [start_service, any_path_true_of_mem services bp.binary_path h]
  · intro pid spawnRes2 services bp h
    have hany : services.any (fun s => s.binary_path == bp.binary_path) = false :=
      any_path_false_of_not_mem services bp.binary_path h
    have hreg1 : (start_service (Except.ok pid) services bp).registry =
        services ++ [{ bp with pid := some pid }] := by
      simp [start_service, hany]
    have hany2 : (services ++ [{ bp with pid := some pid }]).any
        (fun s => s.binary_path == bp.binary_path) = true :=
      any_path_true_of_mem _ _ ⟨{ bp with pid := some pid }, by simp, rfl⟩
    have h0 : services.countP (fun s => s.binary_path == bp.binary_path) = 0 :=
      List.countP_eq_zero.mpr (fun a ha => by simp [h a ha])
    constructor
    · rw [hreg1]
      simp [start_service, hany2]
    · rw [hreg1]
      simp [start_service, hany2, List.countP_append, h0]

/-- Witness for C5 at a concrete input. -/
theorem start_on_existing_path_noop_witness :
    (∃ s ∈ ([{ binary_path := "/bin/a", pid := some 3 }] : List Service),
      s.binary_path = ({ binary_path := "/bin/a", pid := none } : Service).binary_path) ∧
    start_service (Except.ok 9) [{ binary_path := "/bin/a", pid := some 3 }]
        { binary_path := "/bin/a", pid := none } =
      { registry := [{ binary_path := "/bin/a", pid := some 3 }],
        spawnAttempted := false, saved := false,
        outcome := StartOutcome.alreadyExists } :=
  ⟨by decide, start_on_existing_path_noop.1 (Except.ok 9) _ _ (by decide)⟩

/-- C6: Start on a registry not containing the requested path whose
spawn fails aborts fatally with no registry mutation and no save. -/
theorem start_spawn_failure_fatal (services : List Service) (bp : Service)
    (h : ∀ s ∈ services, s.binary_path ≠ bp.binary_path) :
    start_service (Except.error ()) services bp =
      { registry := services, spawnAttempted := true, saved := false,
        outcome := StartOutcome.spawnFailed } := by
  simp [start_service, any_path_false_of_not_mem services bp.binary_path h]

/-- Witness for C6 at a concrete input. -/
theorem start_spawn_failure_fatal_witness :
    (∀ s ∈ ([{ binary_path := "/bin/b", pid := some 3 }] : List Service),
      s.binary_path ≠ ({ binary_path := "/bin/a", pid := none } : Service).binary_path) ∧
    start_service (Except.error ()) [{ binary_path := "/bin/b", pid := some 3 }]
        { binary_path := "/bin/a", pid := none } =
      { registry := [{ binary_path := "/bin/b", pid := some 3 }],
        spawnAttempted := true, saved := false,
        outcome := StartOutcome.spawnFailed } :=
  ⟨by decide, start_spawn_failure_fatal _ _ (by decide)⟩

/-- C7: Stop on a registry containing no record with the requested path
terminates fatally with "service not found", sends no kill signal and
leaves the persisted registry identical. -/
theorem stop_unknown_path_fatal (killExec : Except Unit Bool)
    (services : List Service) (name : Service)
    (h : ∀ s ∈ services, s.binary_path ≠ name.binary_path) :
    stop_service killExec services name =
      { registry := services, killSent := false, saved := false,
        outcome := StopOutcome.notFound } := by
  simp only [stop_service, findIdx?_path_none services name.binary_path h]

/-- Witness for C7 at a concrete input. -/
theorem stop_unknown_path_fatal_witness :
    (∀ s ∈ ([{ binary_path := "/bin/b", pid := some 3 }] : List Service),
      s.binary_path ≠ ({ binary_path := "/bin/a", pid := none } : Service).binary_path) ∧
    stop_service (Except.ok true) [{ binary_path := "/bin/b", pid := some 3 }]
        { binary_path := "/bin/a", pid := none } =
      { registry := [{ binary_path := "/bin/b", pid := some 3 }],
        killSent := false, saved := false, outcome := StopOutcome.notFound } :=
  ⟨by decide, stop_unknown_path_fatal (Except.ok true) _ _ (by decide)⟩

/-- C8: Stop on a registry (with unique paths, the documented registry
invariant) whose record for the requested path has an absent pid
terminates fatally with "PID not found" before any kill signal, leaving
the persisted registry unchanged. -/
theorem stop_missing_pid_fatal (killExec : Except Unit Bool)
    (services : List Service) (name : Service)
    (hnd : (services.map Service.binary_path).Nodup)
    (hmem : ∃ s ∈ services, s.binary_path = name.binary_path ∧ s.pid = none) :
    stop_service killExec services name =
      { registry := services, killSent := false, saved := false,
        outcome := StopOutcome.missingPid } := by
  obtain ⟨s, hs, hb, hp⟩ := hmem
  obtain ⟨i, hfind, hget⟩ := findIdx?_first_match services name.binary_path s hnd hs hb
  simp only [stop_service, hfind, hget, hp]

/-- Witness for C8 at a concrete input. -/
theorem stop_missing_pid_fatal_witness :
    (([{ binary_path := "/bin/a", pid := none }] : List Service).map
      Service.binary_path).Nodup ∧
    (∃ s ∈ ([{ binary_path := "/bin/a", pid := none }] : List Service),
      s.binary_path = ({ binary_path := "/bin/a", pid := none } : Service).binary_path ∧
      s.pid = none) ∧
    stop_service (Except.ok true) [{ binary_path := "/bin/a", pid := none }]
        { binary_path := "/bin/a", pid := none } =
      { registry := [{ binary_path := "/bin/a", pid := none }],
        killSent := false, saved := false, outcome := StopOutcome.missingPid } :=
  ⟨by decide, by decide,
   stop_missing_pid_fatal (Except.ok true) _ _ (by decide) (by decide)⟩

/-- C1 counterexample: when the OS-level termination request for the
recorded pid fails but the `kill` helper program itself runs to
completion (`Except.ok false`: `kill` ran and exited unsuccessfully,
e.g. because pid 42 is already gone), `stop_service` does NOT abort —
it reports success, removes the record and saves, mutating the
persisted registry.  The code never inspects the exit status of the
`kill` invocation (`.output()` only fails when `kill` cannot be run). -/
theorem stop_kill_exit_failure_not_fatal :
    (stop_service (Except.ok false) [{ binary_path := "/bin/x", pid := some 42 }]
        { binary_path := "/bin/x", pid := none }).outcome = StopOutcome.stopped ∧
    (stop_service (Except.ok false) [{ binary_path := "/bin/x", pid := some 42 }]
        { binary_path := "/bin/x", pid := none }).saved = true ∧
    (stop_service (Except.ok false) [{ binary_path := "/bin/x", pid := some 42 }]
        { binary_path := "/bin/x", pid := none }).registry = [] := by
  refine ⟨by decide, by decide, by decide⟩

/-- C1 (amended): when running the `kill` helper program itself fails
at the OS level (it cannot be spawned or awaited — the only failure
`.output().expect` observes), Stop aborts fatally and the persisted
registry is left unchanged: the record is not removed and save is not
called.  (A `kill` that runs but reports failure is treated as
success; see the counterexample.) -/
theorem stop_kill_run_failure_fatal (services : List Service) (name : Service) (p : Nat)
    (hnd : (services.map Service.binary_path).Nodup)
    (hmem : ∃ s ∈ services, s.binary_path = name.binary_path ∧ s.pid = some p) :
    stop_service (Except.error ()) services name =
      { registry := services, killSent := true, saved := false,
        outcome := StopOutcome.killFailed } := by
  obtain ⟨s, hs, hb, hp⟩ := hmem
  obtain ⟨i, hfind, hget⟩ := findIdx?_first_match services name.binary_path s hnd hs hb
  simp only [stop_service, hfind, hget, hp]

/-- Witness for the amended C1 at a concrete input. -/
theorem stop_kill_run_failure_fatal_witness :
    (([{ binary_path := "/bin/a", pid := some 7 }] : List Service).map
      Service.binary_path).Nodup ∧
    (∃ s ∈ ([{ binary_path := "/bin/a", pid := some 7 }] : List Service),
      s.binary_path = ({ binary_path := "/bin/a", pid := none } : Service).binary_path ∧
      s.pid = some 7) ∧
    stop_service (Except.error ()) [{ binary_path := "/bin/a", pid := some 7 }]
        { binary_path := "/bin/a", pid := none } =
      { registry := [{ binary_path := "/bin/a", pid := some 7 }],
        killSent := true, saved := false, outcome := StopOutcome.killFailed } :=
  ⟨by decide, by decide,
   stop_kill_run_failure_fatal _ _ 7 (by decide) (by decide)⟩

/-- C2: a successful Stop on a registry containing the requested path
removes exactly one record — the first whose `binary_path` equals the
request — shrinking the length by one and keeping all remaining records
in their original relative order. -/
theorem stop_removes_exactly_one (killExec : Except Unit Bool)
    (services : List Service) (name : Service)
    (hmem : ∃ s ∈ services, s.binary_path = name.binary_path)
    (hsucc : (stop_service killExec services name).outcome = StopOutcome.stopped) :
    ∃ i, ∃ hi : i < services.length,
      (services.get ⟨i, hi⟩).binary_path = name.binary_path ∧
      (stop_service killExec services name).registry =
        services.take i ++ services.drop (i + 1) ∧
      (stop_service killExec services name).registry.length + 1 = services.length := by
  obtain ⟨s, hs, hb⟩ := hmem
  have hex : ∃ x ∈ services, (x.binary_path == name.binary_path) = true :=
    ⟨s, hs, by simp [hb]⟩
  have hlt := List.findIdx_lt_length_of_exists hex
  have hfind := List.findIdx?_eq_some_of_exists hex
  have hget : services[List.findIdx (fun x => x.binary_path == name.binary_path) services]?
      = some (services.get ⟨List.findIdx (fun x => x.binary_path == name.binary_path)
          services, hlt⟩) := by
    rw [List.getElem?_eq_getElem hlt, List.get_eq_getElem]
  cases hpid : (services.get ⟨List.findIdx (fun x => x.binary_path == name.binary_path)
      services, hlt⟩).pid with
  | none =>
    exfalso
    simp only [stop_service, hfind, hget, hpid] at hsucc
    exact absurd hsucc (by simp)
  | some p =>
    cases killExec with
    | error e =>
      exfalso
      simp only [stop_service, hfind, hget, hpid] at hsucc
      exact absurd hsucc (by simp)
    | ok b =>
      refine ⟨List.findIdx (fun x => x.binary_path == name.binary_path) services,
        hlt, ?_, ?_, ?_⟩
      · have hp : (services[List.findIdx (fun x => x.binary_path == name.binary_path)
            services].binary_path == name.binary_path) = true :=
          @List.findIdx_getElem _ (fun x => x.binary_path == name.binary_path) services hlt
        rw [List.get_eq_getElem]
        exact beq_iff_eq.mp hp
      · simp only [stop_service, hfind, hget, hpid]
        exact List.eraseIdx_eq_take_drop_succ services _
      · simp only [stop_service, hfind, hget, hpid]
        rw [List.length_eraseIdx, if_pos hlt]
        omega

/-- Witness for C2 at a concrete input. -/
theorem stop_removes_exactly_one_witness :
    (∃ s ∈ ([{ binary_path := "/bin/a", pid := some 1 },
             { binary_path := "/bin/b", pid := some 2 }] : List Service),
      s.binary_path = ({ binary_path := "/bin/a", pid := none } : Service).binary_path) ∧
    (stop_service (Except.ok true)
        [{ binary_path := "/bin/a", pid := some 1 },
         { binary_path := "/bin/b", pid := some 2 }]
        { binary_path := "/bin/a", pid := none }).outcome = StopOutcome.stopped ∧
    (∃ i, ∃ hi : i < ([{ binary_path := "/bin/a", pid := some 1 },
             { binary_path := "/bin/b", pid := some 2 }] : List Service).length,
      (([{ binary_path := "/bin/a", pid := some 1 },
          { binary_path := "/bin/b", pid := some 2 }] : List Service).get
            ⟨i, hi⟩).binary_path
          = ({ binary_path := "/bin/a", pid := none } : Service).binary_path ∧
      (stop_service (Except.ok true)
          [{ binary_path := "/bin/a", pid := some 1 },
           { binary_path := "/bin/b", pid := some 2 }]
          { binary_path := "/bin/a", pid := none }).registry =
        ([{ binary_path := "/bin/a", pid := some 1 },
          { binary_path := "/bin/b", pid := some 2 }] : List Service).take i ++
        ([{ binary_path := "/bin/a", pid := some 1 },
          { binary_path := "/bin/b", pid := some 2 }] : List Service).drop (i + 1) ∧
      (stop_service (Except.ok true)
          [{ binary_path := "/bin/a", pid := some 1 },
           { binary_path := "/bin/b", pid := some 2 }]
          { binary_path := "/bin/a", pid := none }).registry.length + 1 =
        ([{ binary_path := "/bin/a", pid := some 1 },
          { binary_path := "/bin/b", pid := some 2 }] : List Service).length) :=
  ⟨by decide, by decide,
   stop_removes_exactly_one (Except.ok true) _ _ (by decide) (by decide)⟩
